import Mathlib

/-!
Shallow embedding of `src/client/src/lib/oauth-state-machine.ts`: the OAuth
authorization state machine of the MCP inspector (transition table
`oauthTransitions` and driver `OAuthStateMachine.executeStep`).

Conventions of the embedding:
* Nullable / possibly-undefined TypeScript values become `Option`.
* A thrown JavaScript value becomes `ThrownVal` (either an `Error` or some
  other value rendered to a string, mirroring the `e instanceof Error` check).
* Asynchronous actions are deterministic given the results of the external
  collaborators, so every network operation of the Protocol Client and the
  `URL` constructor are bundled into a `NetOracle` record of result
  functions; one execution of a step is a pure function of the context.
* `updateState` calls are collected into a list of `StatePatch` values
  (field-wise updates, each field `none` when the call does not mention it),
  and writes to the Persistent Auth Store into a list of `StoreEffect`
  values, in program order.
* The provider `DebugInspectorOAuthClientProvider` is defined in `auth.ts`,
  which is not part of the sources here; its read operations are modelled
  from the spec as record fields holding the values they would return.
-/

/-- The six steps of the flow, in table order (`OAuthStep` in `auth-types.ts`,
as used by `oauthTransitions`). -/
inductive OAuthStep where
  | metadata_discovery
  | client_registration
  | authorization_redirect
  | authorization_code
  | token_request
  | complete
deriving DecidableEq, Repr

/-- The documented next step in table order; `complete` has no successor and
is mapped to itself. -/
def nextStep : OAuthStep → OAuthStep
  | .metadata_discovery => .client_registration
  | .client_registration => .authorization_redirect
  | .authorization_redirect => .authorization_code
  | .authorization_code => .token_request
  | .token_request => .complete
  | .complete => .complete

/-- Printable step name, as interpolated into the illegal-transition error
message of `executeStep`. -/
def stepName : OAuthStep → String
  | .metadata_discovery => "metadata_discovery"
  | .client_registration => "client_registration"
  | .authorization_redirect => "authorization_redirect"
  | .authorization_code => "authorization_code"
  | .token_request => "token_request"
  | .complete => "complete"

/-- A JavaScript `Error` object, reduced to its message. -/
structure ErrorV where
  message : String
deriving DecidableEq, Repr

/-- A thrown JavaScript value: either an `Error`, or any other value
carrying its `String(e)` rendering. -/
inductive ThrownVal where
  | err (e : ErrorV)
  | nonErr (rendering : String)
deriving DecidableEq, Repr

/-- The `catch` conversion of `metadata_discovery`: an `Error` is kept,
anything else is wrapped as `new Error(String(e))`. -/
def errOfThrown : ThrownVal → ErrorV
  | .err e => e
  | .nonErr s => ⟨s⟩

/-- A parsed `URL` object, reduced to its `href` (the machine only ever
constructs URLs and converts them back to strings). -/
structure URLv where
  href : String
deriving DecidableEq, Repr

/-- The unvalidated value returned by `discoverOAuthMetadata` before
`OAuthMetadataSchema.parseAsync` runs; opaque JSON, carried as a token. -/
structure RawMetadata where
  payload : String
deriving DecidableEq, Repr

/-- Validated authorization-server metadata (`OAuthMetadata` of the SDK);
only the fields the state machine reads are modelled. -/
structure OAuthMetadata where
  issuer : String
  scopes_supported : Option (List String)
deriving DecidableEq, Repr

/-- Protected-resource metadata (`OAuthProtectedResourceMetadata` of the
SDK); only the fields the state machine reads are modelled. -/
structure OAuthProtectedResourceMetadata where
  resource : String
  authorization_servers : Option (List String)
  scopes_supported : Option (List String)
deriving DecidableEq, Repr

/-- Modelled from the spec: the outgoing client-metadata payload of dynamic
client registration (`provider.clientMetadata`; `auth.ts` is not among the
sources). The machine only writes its `scope` field; the remaining payload
is carried opaquely. -/
structure OAuthClientMetadata where
  client_name : String
  redirect_uris : List String
  scope : Option String
deriving DecidableEq, Repr

/-- Registered client information returned by `registerClient`. -/
structure OAuthClientInformation where
  client_id : String
  client_secret : Option String
deriving DecidableEq, Repr

/-- Token set returned by `exchangeAuthorization`. -/
structure OAuthTokens where
  access_token : String
  token_type : String
  refresh_token : Option String
deriving DecidableEq, Repr

/-- The Debugger State (`AuthDebuggerState` of `auth-types.ts`, modelled
from the spec data model, section 3): the record threaded through every
step. `oauthStep` is the field name the code patches. -/
structure AuthDebuggerState where
  oauthStep : OAuthStep
  resourceMetadata : Option OAuthProtectedResourceMetadata
  resourceMetadataError : Option ErrorV
  authServerUrl : Option URLv
  oauthMetadata : Option OAuthMetadata
  oauthClientInfo : Option OAuthClientInformation
  authorizationUrl : Option String
  authorizationCode : Option String
  validationError : Option String
  oauthTokens : Option OAuthTokens
  statusMessage : Option String
  latestError : Option ErrorV
deriving DecidableEq, Repr

/-- One `updateState` argument: a field-wise update of the Debugger State.
A field is `none` when the call does not mention it, `some v` when the call
sets it to `v` (where `v` may itself be `none`, mirroring an explicit
`null`). -/
structure StatePatch where
  oauthStep : Option OAuthStep := none
  resourceMetadata : Option (Option OAuthProtectedResourceMetadata) := none
  resourceMetadataError : Option (Option ErrorV) := none
  authServerUrl : Option (Option URLv) := none
  oauthMetadata : Option (Option OAuthMetadata) := none
  oauthClientInfo : Option (Option OAuthClientInformation) := none
  authorizationUrl : Option (Option String) := none
  authorizationCode : Option (Option String) := none
  validationError : Option (Option String) := none
  oauthTokens : Option (Option OAuthTokens) := none
deriving DecidableEq, Repr

/-- A write to the Persistent Auth Store performed through the provider. -/
inductive StoreEffect where
  | saveServerMetadata (m : OAuthMetadata)
  | saveClientInformation (c : OAuthClientInformation)
  | saveCodeVerifier (v : String)
  | saveTokens (t : OAuthTokens)
deriving DecidableEq, Repr

/-- Modelled from the spec: the read surface of
`DebugInspectorOAuthClientProvider` (`auth.ts` is not among the sources).
Each field holds the value the corresponding provider operation returns
during this invocation; `codeVerifier` may fail, as the persisted verifier
may be absent. -/
structure DebugInspectorOAuthClientProvider where
  clientMetadata : OAuthClientMetadata
  redirectUrl : String
  serverMetadata : Option OAuthMetadata
  clientInformation : Option OAuthClientInformation
  codeVerifier : Except ThrownVal String
deriving Repr

/-- Results of the external operations used by the machine: the four
Protocol Client network operations, schema validation, and the `URL`
constructor. Deterministic per invocation. -/
structure NetOracle where
  parseURL : String → Except ThrownVal URLv
  discoverProtectedResource : Except ThrownVal (Option OAuthProtectedResourceMetadata)
  discoverOAuthMetadata : URLv → Except ThrownVal (Option RawMetadata)
  parseMetadata : RawMetadata → Except ThrownVal OAuthMetadata
  registerClient : OAuthMetadata → OAuthClientMetadata →
      Except ThrownVal OAuthClientInformation
  startAuthorization : OAuthMetadata → OAuthClientInformation → String →
      Option String → Except ThrownVal (URLv × String)
  exchangeAuthorization : Option OAuthMetadata → Option OAuthClientInformation →
      Option String → String → String → Except ThrownVal OAuthTokens

/-- The `StateMachineContext` handed to every transition, with the oracle
standing in for the awaited external operations. -/
structure StateMachineContext where
  state : AuthDebuggerState
  serverUrl : String
  provider : DebugInspectorOAuthClientProvider
  oracle : NetOracle

/-- View of `Except` as a sum, to derive decidable equality for it. -/
def exceptToSum {α β : Type} : Except α β → α ⊕ β
  | .error a => .inl a
  | .ok b => .inr b

instance {α β : Type} [DecidableEq α] [DecidableEq β] : DecidableEq (Except α β) :=
  fun a b =>
    decidable_of_iff (exceptToSum a = exceptToSum b)
      (by cases a <;> cases b <;> simp [exceptToSum])

/-- The observable outcome of running one step: the `updateState` calls and
store writes in program order, and normal completion or a thrown value. -/
structure ExecOutcome where
  patches : List StatePatch
  effects : List StoreEffect
  result : Except ThrownVal Unit
deriving DecidableEq, Repr

/-- An outcome that throws `t` with no patch and no store write. -/
def throwOutcome (t : ThrownVal) : ExecOutcome :=
  { patches := [], effects := [], result := .error t }

/-- JavaScript truthiness of a possibly-absent string: `undefined`, `null`
and `""` are falsy, every other string is truthy. -/
def jsTruthyStr : Option String → Bool
  | none => false
  | some s => s ≠ ""

/-- The `try` block of `metadata_discovery.execute`: attempt
protected-resource-metadata discovery; on a non-empty
`authorization_servers` list take its first entry as the authorization
server; any throw inside the block (including a bad URL in that first
entry) is caught into `resourceMetadataError`, keeping whatever
`resourceMetadata` was already assigned. Returns the `resourceMetadata`,
`resourceMetadataError` and `authServerUrl` locals after the block. -/
def resourceDiscoveryPhase (oracle : NetOracle) (serverUrlParsed : URLv) :
    Option OAuthProtectedResourceMetadata × Option ErrorV × URLv :=
  match oracle.discoverProtectedResource with
  | .error e => (none, some (errOfThrown e), serverUrlParsed)
  | .ok rm =>
    match rm with
    | none => (none, none, serverUrlParsed)
    | some m =>
      match m.authorization_servers with
      | some (h :: _) =>
        match oracle.parseURL h with
        | .ok u => (some m, none, u)
        | .error e => (some m, some (errOfThrown e), serverUrlParsed)
      | _ => (some m, none, serverUrlParsed)

/-- `metadata_discovery.execute`: resolve the authorization server (resource
metadata indirection is non-fatal), then discover and validate the
authorization-server metadata (fatal if absent or invalid), persist it and
patch the state forward to `client_registration`. -/
def metadataDiscoveryExecute (ctx : StateMachineContext) : ExecOutcome :=
  match ctx.oracle.parseURL ctx.serverUrl with
  | .error e => throwOutcome e
  | .ok serverUrlParsed =>
    match resourceDiscoveryPhase ctx.oracle serverUrlParsed with
    | (resourceMetadata, resourceMetadataError, authServerUrl) =>
      match ctx.oracle.discoverOAuthMetadata authServerUrl with
      | .error e => throwOutcome e
      | .ok none => throwOutcome (.err ⟨"Failed to discover OAuth metadata"⟩)
      | .ok (some raw) =>
        match ctx.oracle.parseMetadata raw with
        | .error e => throwOutcome e
        | .ok parsedMetadata =>
          { patches := [{ resourceMetadata := some resourceMetadata,
                          resourceMetadataError := some resourceMetadataError,
                          authServerUrl := some (some authServerUrl),
                          oauthMetadata := some (some parsedMetadata),
                          oauthStep := some .client_registration }],
            effects := [.saveServerMetadata parsedMetadata],
            result := .ok () }

/-- The outgoing client-metadata payload of `client_registration.execute`:
prefer the resource metadata's `scopes_supported` over the
authorization-server metadata's (JavaScript `||`, so a present empty list
is kept), join with single spaces into `scope`; with neither list present
the payload is passed through unmodified. -/
def registrationPayload (state : AuthDebuggerState)
    (provider : DebugInspectorOAuthClientProvider)
    (metadata : OAuthMetadata) : OAuthClientMetadata :=
  let scopesSupported :=
    (state.resourceMetadata.bind (fun m => m.scopes_supported)).orElse
      (fun _ => metadata.scopes_supported)
  match scopesSupported with
  | some scopes =>
      { provider.clientMetadata with scope := some (String.intercalate " " scopes) }
  | none => provider.clientMetadata

/-- `client_registration.execute`: build the payload, dynamically register
the client, persist the returned information and patch forward to
`authorization_redirect`. A missing `oauthMetadata` (impossible after the
precondition) fails like the runtime dereference would. -/
def clientRegistrationExecute (ctx : StateMachineContext) : ExecOutcome :=
  match ctx.state.oauthMetadata with
  | none => throwOutcome (.err ⟨"TypeError: oauthMetadata is undefined"⟩)
  | some metadata =>
    match ctx.oracle.registerClient metadata
        (registrationPayload ctx.state ctx.provider metadata) with
    | .error e => throwOutcome e
    | .ok fullInformation =>
      { patches := [{ oauthClientInfo := some (some fullInformation),
                      oauthStep := some .authorization_redirect }],
        effects := [.saveClientInformation fullInformation],
        result := .ok () }

/-- `authorization_redirect.execute`: join the authorization-server
metadata's supported scopes (or omit the scope), build the authorization
URL and a fresh PKCE code verifier, persist the verifier, and patch
`authorizationUrl` forward to `authorization_code`. -/
def authorizationRedirectExecute (ctx : StateMachineContext) : ExecOutcome :=
  match ctx.state.oauthMetadata, ctx.state.oauthClientInfo with
  | some metadata, some clientInformation =>
    let scope := metadata.scopes_supported.map (String.intercalate " ")
    match ctx.oracle.startAuthorization metadata clientInformation
        ctx.provider.redirectUrl scope with
    | .error e => throwOutcome e
    | .ok (authorizationUrl, codeVerifier) =>
      { patches := [{ authorizationUrl := some (some authorizationUrl.href),
                      oauthStep := some .authorization_code }],
        effects := [.saveCodeVerifier codeVerifier],
        result := .ok () }
  | _, _ => throwOutcome (.err ⟨"TypeError: metadata or client info undefined"⟩)

/-- JavaScript `String.prototype.trim`: drop leading and trailing
whitespace (kernel-computable model over the character list). -/
def jsTrim (s : String) : String :=
  String.mk
    (List.reverse (List.dropWhile Char.isWhitespace
      (List.reverse (List.dropWhile Char.isWhitespace s.data))))

/-- The blank test of `authorization_code.execute`:
`!code || code.trim() === ""`. -/
def authorizationCodeBlank : Option String → Bool
  | none => true
  | some s => jsTrim s = ""

/-- `authorization_code.execute`: purely local validation. A blank code
patches `validationError` and throws without advancing; otherwise the
patch clears `validationError` and advances to `token_request`. -/
def authorizationCodeExecute (ctx : StateMachineContext) : ExecOutcome :=
  if authorizationCodeBlank ctx.state.authorizationCode then
    { patches :=
        [{ validationError := some (some "You need to provide an authorization code") }],
      effects := [],
      result := .error (.err ⟨"Authorization code required"⟩) }
  else
    { patches := [{ validationError := some none,
                    oauthStep := some .token_request }],
      effects := [],
      result := .ok () }

/-- `token_request.execute`: retrieve the persisted verifier, metadata and
client information from the provider (not the in-memory copies), exchange
the authorization code for tokens, persist them and patch forward to
`complete`. -/
def tokenRequestExecute (ctx : StateMachineContext) : ExecOutcome :=
  match ctx.provider.codeVerifier with
  | .error e => throwOutcome e
  | .ok codeVerifier =>
    match ctx.oracle.exchangeAuthorization ctx.provider.serverMetadata
        ctx.provider.clientInformation ctx.state.authorizationCode
        codeVerifier ctx.provider.redirectUrl with
    | .error e => throwOutcome e
    | .ok tokens =>
      { patches := [{ oauthTokens := some (some tokens),
                      oauthStep := some .complete }],
        effects := [.saveTokens tokens],
        result := .ok () }

/-- `complete.execute`: a no-op. -/
def completeExecute (_ctx : StateMachineContext) : ExecOutcome :=
  { patches := [], effects := [], result := .ok () }

/-- One entry of the transition table: a precondition and an action. -/
structure StateTransition where
  canTransition : StateMachineContext → Bool
  execute : StateMachineContext → ExecOutcome

/-- The transition table `oauthTransitions`, one entry per step. -/
def oauthTransitions : OAuthStep → StateTransition
  | .metadata_discovery =>
    { canTransition := fun _ => true
      execute := metadataDiscoveryExecute }
  | .client_registration =>
    { canTransition := fun ctx => ctx.state.oauthMetadata.isSome
      execute := clientRegistrationExecute }
  | .authorization_redirect =>
    { canTransition := fun ctx =>
        ctx.state.oauthMetadata.isSome && ctx.state.oauthClientInfo.isSome
      execute := authorizationRedirectExecute }
  | .authorization_code =>
    { canTransition := fun _ => true
      execute := authorizationCodeExecute }
  | .token_request =>
    { canTransition := fun ctx =>
        jsTruthyStr ctx.state.authorizationCode &&
        ctx.provider.serverMetadata.isSome &&
        ctx.provider.clientInformation.isSome
      execute := tokenRequestExecute }
  | .complete =>
    { canTransition := fun _ => false
      execute := completeExecute }

/-- `OAuthStateMachine.executeStep`: look up the entry for the current
step, reject with "Cannot transition from <step>" when the precondition
fails (no patch, no store write), and otherwise run the action. -/
def executeStep (ctx : StateMachineContext) : ExecOutcome :=
  let transition := oauthTransitions ctx.state.oauthStep
  if transition.canTransition ctx then transition.execute ctx
  else throwOutcome (.err
    ⟨"Cannot transition from " ++ stepName ctx.state.oauthStep⟩)

/-! ## Concrete fixtures used by witnesses -/

/-- A sample validated authorization-server metadata value. -/
def sampleMetadata : OAuthMetadata :=
  { issuer := "https://auth.example", scopes_supported := some ["read", "write"] }

/-- A sample raw (unvalidated) metadata token. -/
def sampleRaw : RawMetadata := { payload := "raw-metadata" }

/-- A sample registered client. -/
def sampleClientInfo : OAuthClientInformation :=
  { client_id := "client-1", client_secret := some "secret-1" }

/-- A sample token set. -/
def sampleTokens : OAuthTokens :=
  { access_token := "tok-1", token_type := "Bearer", refresh_token := none }

/-- A sample outgoing client-metadata payload with no scope set. -/
def sampleClientMetadata : OAuthClientMetadata :=
  { client_name := "MCP Inspector", redirect_uris := ["http://localhost/callback"],
    scope := none }

/-- An oracle on which every external operation succeeds. -/
def sampleOracle : NetOracle :=
  { parseURL := fun s => .ok { href := s }
    discoverProtectedResource := .ok none
    discoverOAuthMetadata := fun _ => .ok (some sampleRaw)
    parseMetadata := fun _ => .ok sampleMetadata
    registerClient := fun _ _ => .ok sampleClientInfo
    startAuthorization := fun _ _ _ _ =>
      .ok ({ href := "https://auth.example/authorize" }, "pkce-verifier-1")
    exchangeAuthorization := fun _ _ _ _ _ => .ok sampleTokens }

/-- A provider whose persisted store holds metadata, client info and a
verifier. -/
def sampleProvider : DebugInspectorOAuthClientProvider :=
  { clientMetadata := sampleClientMetadata
    redirectUrl := "http://localhost/callback"
    serverMetadata := some sampleMetadata
    clientInformation := some sampleClientInfo
    codeVerifier := .ok "pkce-verifier-1" }

/-- The freshly created Debugger State: all optional fields unset, at
`metadata_discovery`. -/
def emptyDebuggerState : AuthDebuggerState :=
  { oauthStep := .metadata_discovery, resourceMetadata := none,
    resourceMetadataError := none, authServerUrl := none, oauthMetadata := none,
    oauthClientInfo := none, authorizationUrl := none, authorizationCode := none,
    validationError := none, oauthTokens := none, statusMessage := none,
    latestError := none }

/-- A context over the sample oracle and provider at a given state. -/
def sampleContext (s : AuthDebuggerState) : StateMachineContext :=
  { state := s, serverUrl := "https://example.com", provider := sampleProvider,
    oracle := sampleOracle }

/-! ## Claims -/

/-- C2: whenever the current step's precondition is false, `executeStep`
fails with the error naming the rejected step, the action is not run, and
no patch and no store write is produced, so the state is unchanged. -/
theorem executeStep_rejected_precondition (ctx : StateMachineContext)
    (h : (oauthTransitions ctx.state.oauthStep).canTransition ctx = false) :
    executeStep ctx =
      { patches := [], effects := [],
        result := .error (.err
          ⟨"Cannot transition from " ++ stepName ctx.state.oauthStep⟩) } := by
  simp [executeStep, h, throwOutcome]

/-- Witness for C2: at `complete` (whose precondition is false) on a fully
concrete context, `executeStep` rejects with the named error and empty
patch and effect lists. -/
theorem executeStep_rejected_precondition_witness :
    (oauthTransitions (sampleContext { emptyDebuggerState with
        oauthStep := .complete }).state.oauthStep).canTransition
      (sampleContext { emptyDebuggerState with oauthStep := .complete }) = false ∧
    executeStep (sampleContext { emptyDebuggerState with oauthStep := .complete }) =
      { patches := [], effects := [],
        result := .error (.err ⟨"Cannot transition from complete"⟩) } :=
  ⟨rfl, executeStep_rejected_precondition _ rfl⟩

/-- C8: `complete` is terminal: its precondition evaluates to false on every
context, so `executeStep` at `complete` always fails with the
illegal-transition error and no input transitions out of `complete`. -/
theorem complete_is_terminal (ctx : StateMachineContext)
    (h : ctx.state.oauthStep = .complete) :
    (oauthTransitions .complete).canTransition ctx = false ∧
    executeStep ctx =
      { patches := [], effects := [],
        result := .error (.err ⟨"Cannot transition from complete"⟩) } := by
  refine ⟨rfl, ?_⟩
  simp [executeStep, h, oauthTransitions, stepName, throwOutcome]

/-- Witness for C8: the terminal behaviour at a concrete `complete`
context. -/
theorem complete_is_terminal_witness :
    (oauthTransitions .complete).canTransition
      (sampleContext { emptyDebuggerState with oauthStep := .complete }) = false ∧
    executeStep (sampleContext { emptyDebuggerState with oauthStep := .complete }) =
      { patches := [], effects := [],
        result := .error (.err ⟨"Cannot transition from complete"⟩) } :=
  complete_is_terminal _ rfl

/-- A state at `client_registration` holding the sample metadata in
memory. -/
def registrationState : AuthDebuggerState :=
  { emptyDebuggerState with
      oauthStep := .client_registration
      oauthMetadata := some sampleMetadata }

/-- A state at `token_request` with a non-blank code and nothing in
memory. -/
def tokenRequestState : AuthDebuggerState :=
  { emptyDebuggerState with
      oauthStep := .token_request
      authorizationCode := some "abc" }

/-- A state at `token_request` whose code is whitespace-only. -/
def tokenRequestWsState : AuthDebuggerState :=
  { emptyDebuggerState with
      oauthStep := .token_request
      authorizationCode := some "   " }

/-- C7: the outgoing registration payload's scope equals the resource
metadata's `scopes_supported` joined by single spaces when that list is
present, otherwise the authorization-server metadata's `scopes_supported`
joined the same way; with neither list present the payload is unmodified.
The last conjunct ties the payload to `client_registration.execute`: on a
successful registration the action's patch carries the returned client
information and advances to `authorization_redirect`. -/
theorem registration_scope_selection (ctx : StateMachineContext)
    (m : OAuthMetadata) (hm : ctx.state.oauthMetadata = some m) :
    (∀ l, ctx.state.resourceMetadata.bind (fun r => r.scopes_supported) = some l →
      registrationPayload ctx.state ctx.provider m =
        { ctx.provider.clientMetadata with
            scope := some (String.intercalate " " l) }) ∧
    (ctx.state.resourceMetadata.bind (fun r => r.scopes_supported) = none →
      ∀ l, m.scopes_supported = some l →
        registrationPayload ctx.state ctx.provider m =
          { ctx.provider.clientMetadata with
              scope := some (String.intercalate " " l) }) ∧
    (ctx.state.resourceMetadata.bind (fun r => r.scopes_supported) = none →
      m.scopes_supported = none →
      registrationPayload ctx.state ctx.provider m = ctx.provider.clientMetadata) ∧
    (∀ info, ctx.oracle.registerClient m
        (registrationPayload ctx.state ctx.provider m) = .ok info →
      clientRegistrationExecute ctx =
        { patches := [{ oauthClientInfo := some (some info),
                        oauthStep := some .authorization_redirect }],
          effects := [.saveClientInformation info],
          result := .ok () }) := by
  refine ⟨?_, ?_, ?_, ?_⟩
  · intro l hl
    simp [registrationPayload, hl, Option.orElse]
  · intro hn l hl
    simp [registrationPayload, hn, hl, Option.orElse]
  · intro hn hln
    simp [registrationPayload, hn, hln, Option.orElse]
  · intro info hreg
    simp [clientRegistrationExecute, hm, hreg]

/-- Witness for C7: on a concrete context with no resource metadata and
authorization-server scopes `["read", "write"]`, the payload's scope is
`"read write"` and the action's patch advances with the registered
client. -/
theorem registration_scope_selection_witness :
    (sampleContext registrationState).state.oauthMetadata = some sampleMetadata ∧
    registrationPayload (sampleContext registrationState).state
        (sampleContext registrationState).provider sampleMetadata =
      { sampleClientMetadata with scope := some "read write" } ∧
    clientRegistrationExecute (sampleContext registrationState) =
      { patches := [{ oauthClientInfo := some (some sampleClientInfo),
                      oauthStep := some .authorization_redirect }],
        effects := [.saveClientInformation sampleClientInfo],
        result := .ok () } := by
  refine ⟨rfl, ?_, ?_⟩
  · exact ((registration_scope_selection (sampleContext registrationState)
      sampleMetadata rfl).2.1 rfl ["read", "write"] rfl).trans (by decide)
  · exact (registration_scope_selection (sampleContext registrationState)
      sampleMetadata rfl).2.2.2 sampleClientInfo rfl

/-- C3 counterexample: a context whose in-memory `oauthMetadata` and
`oauthClientInfo` are both absent, yet the `token_request` precondition
holds, because the precondition reads the persisted store through the
provider, not the in-memory Debugger State. -/
theorem token_request_can_without_memory :
    (oauthTransitions .token_request).canTransition
      (sampleContext tokenRequestState) = true ∧
    (sampleContext tokenRequestState).state.oauthMetadata = none ∧
    (sampleContext tokenRequestState).state.oauthClientInfo = none := by
  refine ⟨?_, rfl, rfl⟩
  decide

/-- C3 amended: whenever the `token_request` precondition holds, the
persisted (store-backed) server metadata and client information read
through the provider are present, and `authorizationCode` is truthy; the
in-memory `oauthMetadata` / `oauthClientInfo` fields need not be. -/
theorem token_request_can_requires_store (ctx : StateMachineContext)
    (h : (oauthTransitions .token_request).canTransition ctx = true) :
    ctx.provider.serverMetadata.isSome = true ∧
    ctx.provider.clientInformation.isSome = true ∧
    jsTruthyStr ctx.state.authorizationCode = true := by
  simp only [oauthTransitions, Bool.and_eq_true] at h
  exact ⟨h.1.2, h.2, h.1.1⟩

/-- Witness for C3 (amended): at a concrete context passing the
precondition, the persisted copies are present. -/
theorem token_request_can_requires_store_witness :
    (sampleContext tokenRequestState).provider.serverMetadata.isSome = true ∧
    (sampleContext tokenRequestState).provider.clientInformation.isSome = true ∧
    jsTruthyStr (sampleContext tokenRequestState).state.authorizationCode = true :=
  token_request_can_requires_store _ (by decide)

/-- C4 counterexample: the whitespace-only authorization code `"   "` is a
truthy string, so the `token_request` precondition holds on a context whose
code trims to the empty string — the precondition does not reject
whitespace-only codes. -/
theorem token_request_can_with_whitespace_code :
    (oauthTransitions .token_request).canTransition
      (sampleContext tokenRequestWsState) = true ∧
    (sampleContext tokenRequestWsState).state.authorizationCode = some "   " ∧
    jsTrim "   " = "" := by
  refine ⟨?_, rfl, ?_⟩ <;> decide

/-- C4 amended: whenever the `token_request` precondition holds,
`authorizationCode` is a present, non-empty string; it may however consist
only of whitespace, since the precondition tests JavaScript truthiness and
does not trim. -/
theorem token_request_can_code_nonempty (ctx : StateMachineContext)
    (h : (oauthTransitions .token_request).canTransition ctx = true) :
    ∃ s, ctx.state.authorizationCode = some s ∧ s ≠ "" := by
  simp only [oauthTransitions, Bool.and_eq_true] at h
  have ht := h.1.1
  cases hc : ctx.state.authorizationCode with
  | none => rw [hc] at ht; simp [jsTruthyStr] at ht
  | some s =>
    refine ⟨s, rfl, ?_⟩
    rw [hc] at ht
    simpa [jsTruthyStr] using ht

/-- Witness for C4 (amended): applying the amended theorem at a concrete
context whose precondition holds. -/
theorem token_request_can_code_nonempty_witness :
    ∃ s, (sampleContext tokenRequestState).state.authorizationCode = some s ∧
      s ≠ "" :=
  token_request_can_code_nonempty _ (by decide)

/-- C5: at `authorization_code`, a missing or blank (after trimming)
authorization code makes `executeStep` fail while patching only
`validationError` (so `step` stays `authorization_code`); a non-blank code
succeeds, clears `validationError` and advances to `token_request`. -/
theorem authorization_code_validation (ctx : StateMachineContext)
    (hstep : ctx.state.oauthStep = .authorization_code) :
    (ctx.state.authorizationCode = none ∨
        (∃ s, ctx.state.authorizationCode = some s ∧ jsTrim s = "") →
      executeStep ctx =
        { patches :=
            [{ validationError := some (some "You need to provide an authorization code") }],
          effects := [],
          result := .error (.err ⟨"Authorization code required"⟩) }) ∧
    (∀ s, ctx.state.authorizationCode = some s → jsTrim s ≠ "" →
      executeStep ctx =
        { patches := [{ validationError := some none,
                        oauthStep := some .token_request }],
          effects := [],
          result := .ok () }) := by
  constructor
  · intro hblank
    have hb : authorizationCodeBlank ctx.state.authorizationCode = true := by
      rcases hblank with h | ⟨s, hs, ht⟩
      · simp [authorizationCodeBlank, h]
      · simp [authorizationCodeBlank, hs, ht]
    simp [executeStep, hstep, oauthTransitions, authorizationCodeExecute, hb]
  · intro s hs ht
    have hb : authorizationCodeBlank ctx.state.authorizationCode = false := by
      simp [authorizationCodeBlank, hs, ht]
    simp [executeStep, hstep, oauthTransitions, authorizationCodeExecute, hb]

/-- Witness for C5: on a concrete whitespace-only code `"   "` the step
fails and sets `validationError` without advancing. -/
theorem authorization_code_validation_witness :
    executeStep (sampleContext { emptyDebuggerState with
        oauthStep := .authorization_code
        authorizationCode := some "   " }) =
      { patches :=
          [{ validationError := some (some "You need to provide an authorization code") }],
        effects := [],
        result := .error (.err ⟨"Authorization code required"⟩) } :=
  (authorization_code_validation _ rfl).1 (Or.inr ⟨"   ", rfl, by decide⟩)

/-- C6: when protected-resource-metadata discovery throws (any value) but
authorization-server metadata discovery at the parsed target URL succeeds
and validates, `metadata_discovery` succeeds: `authServerUrl` is the
target's own parsed URL, `resourceMetadataError` captures the failure, the
validated metadata is persisted and patched in, and the step advances to
`client_registration` — the resource-metadata failure is not fatal. -/
theorem metadata_discovery_resource_failure_nonfatal (ctx : StateMachineContext)
    (t : ThrownVal) (u : URLv) (raw : RawMetadata) (m : OAuthMetadata)
    (hstep : ctx.state.oauthStep = .metadata_discovery)
    (hres : ctx.oracle.discoverProtectedResource = .error t)
    (hurl : ctx.oracle.parseURL ctx.serverUrl = .ok u)
    (hdisc : ctx.oracle.discoverOAuthMetadata u = .ok (some raw))
    (hparse : ctx.oracle.parseMetadata raw = .ok m) :
    executeStep ctx =
      { patches := [{ resourceMetadata := some none
                      resourceMetadataError := some (some (errOfThrown t))
                      authServerUrl := some (some u)
                      oauthMetadata := some (some m)
                      oauthStep := some .client_registration }],
        effects := [.saveServerMetadata m],
        result := .ok () } := by
  simp [executeStep, hstep, oauthTransitions, metadataDiscoveryExecute,
    resourceDiscoveryPhase, hres, hurl, hdisc, hparse]

/-- Witness for C6: a concrete oracle whose resource discovery throws a
non-`Error` value; the step still succeeds against the target's own URL. -/
theorem metadata_discovery_resource_failure_nonfatal_witness :
    executeStep
        { state := emptyDebuggerState
          serverUrl := "https://example.com"
          provider := sampleProvider
          oracle := { sampleOracle with
            discoverProtectedResource := .error (.nonErr "boom") } } =
      { patches := [{ resourceMetadata := some none
                      resourceMetadataError := some (some ⟨"boom"⟩)
                      authServerUrl := some (some ⟨"https://example.com"⟩)
                      oauthMetadata := some (some sampleMetadata)
                      oauthStep := some .client_registration }],
        effects := [.saveServerMetadata sampleMetadata],
        result := .ok () } :=
  metadata_discovery_resource_failure_nonfatal _ (.nonErr "boom")
    ⟨"https://example.com"⟩ sampleRaw sampleMetadata rfl rfl rfl rfl rfl

/-- C10: when protected-resource-metadata discovery succeeds but the
returned metadata's `authorization_servers` list is absent or empty,
`metadata_discovery` keeps the target's own parsed URL as `authServerUrl`,
records the returned `resourceMetadata` with a null
`resourceMetadataError`, and (authorization-server discovery succeeding)
advances to `client_registration`. -/
theorem metadata_discovery_empty_auth_servers (ctx : StateMachineContext)
    (rm : OAuthProtectedResourceMetadata) (u : URLv) (raw : RawMetadata)
    (m : OAuthMetadata)
    (hstep : ctx.state.oauthStep = .metadata_discovery)
    (hres : ctx.oracle.discoverProtectedResource = .ok (some rm))
    (hempty : rm.authorization_servers = none ∨ rm.authorization_servers = some [])
    (hurl : ctx.oracle.parseURL ctx.serverUrl = .ok u)
    (hdisc : ctx.oracle.discoverOAuthMetadata u = .ok (some raw))
    (hparse : ctx.oracle.parseMetadata raw = .ok m) :
    executeStep ctx =
      { patches := [{ resourceMetadata := some (some rm)
                      resourceMetadataError := some none
                      authServerUrl := some (some u)
                      oauthMetadata := some (some m)
                      oauthStep := some .client_registration }],
        effects := [.saveServerMetadata m],
        result := .ok () } := by
  rcases hempty with he | he <;>
    simp [executeStep, hstep, oauthTransitions, metadataDiscoveryExecute,
      resourceDiscoveryPhase, hres, he, hurl, hdisc, hparse]

/-- Witness for C10: a concrete resource metadata with an empty
`authorization_servers` list; the step keeps the target's own URL and a
null `resourceMetadataError`. -/
theorem metadata_discovery_empty_auth_servers_witness :
    executeStep
        { state := emptyDebuggerState
          serverUrl := "https://example.com"
          provider := sampleProvider
          oracle := { sampleOracle with
            discoverProtectedResource :=
              .ok (some { resource := "https://example.com"
                          authorization_servers := some []
                          scopes_supported := none }) } } =
      { patches := [{ resourceMetadata :=
                        some (some { resource := "https://example.com"
                                     authorization_servers := some []
                                     scopes_supported := none })
                      resourceMetadataError := some none
                      authServerUrl := some (some ⟨"https://example.com"⟩)
                      oauthMetadata := some (some sampleMetadata)
                      oauthStep := some .client_registration }],
        effects := [.saveServerMetadata sampleMetadata],
        result := .ok () } :=
  metadata_discovery_empty_auth_servers _
    { resource := "https://example.com", authorization_servers := some []
      scopes_supported := none }
    ⟨"https://example.com"⟩ sampleRaw sampleMetadata rfl rfl (Or.inr rfl)
    rfl rfl rfl

/-- `executeStep` unfolded: guard, then action or rejection. -/
theorem executeStep_def (ctx : StateMachineContext) :
    executeStep ctx =
      if (oauthTransitions ctx.state.oauthStep).canTransition ctx
      then (oauthTransitions ctx.state.oauthStep).execute ctx
      else throwOutcome (.err
        ⟨"Cannot transition from " ++ stepName ctx.state.oauthStep⟩) := rfl

/-- The outcome shape of a well-behaved step action: on success exactly one
patch, setting `oauthStep` to the given next step; on failure no patch
touches `oauthStep`. -/
def advancesTo (o : ExecOutcome) (next : OAuthStep) : Prop :=
  (o.result = .ok () → ∃ p, o.patches = [p] ∧ p.oauthStep = some next) ∧
  (∀ t, o.result = .error t → ∀ p ∈ o.patches, p.oauthStep = none)

lemma metadataDiscovery_advances (ctx : StateMachineContext) :
    advancesTo (metadataDiscoveryExecute ctx) .client_registration := by
  unfold advancesTo metadataDiscoveryExecute
  rcases h1 : ctx.oracle.parseURL ctx.serverUrl with e | u
  · simp [h1, throwOutcome]
  · rcases h2 : resourceDiscoveryPhase ctx.oracle u with ⟨rm, rme, asu⟩
    rcases h3 : ctx.oracle.discoverOAuthMetadata asu with e | r
    · simp [h1, h2, h3, throwOutcome]
    · rcases r with _ | raw
      · simp [h1, h2, h3, throwOutcome]
      · rcases h4 : ctx.oracle.parseMetadata raw with e | m
        · simp [h1, h2, h3, h4, throwOutcome]
        · simp [h1, h2, h3, h4]

lemma clientRegistration_advances (ctx : StateMachineContext) :
    advancesTo (clientRegistrationExecute ctx) .authorization_redirect := by
  unfold advancesTo clientRegistrationExecute
  rcases h1 : ctx.state.oauthMetadata with _ | m
  · simp [h1, throwOutcome]
  · rcases h2 : ctx.oracle.registerClient m
        (registrationPayload ctx.state ctx.provider m) with e | info
    · simp [h1, h2, throwOutcome]
    · simp [h1, h2]

lemma authorizationRedirect_advances (ctx : StateMachineContext) :
    advancesTo (authorizationRedirectExecute ctx) .authorization_code := by
  unfold advancesTo authorizationRedirectExecute
  rcases h1 : ctx.state.oauthMetadata with _ | m
  · simp [h1, throwOutcome]
  · rcases h2 : ctx.state.oauthClientInfo with _ | ci
    · simp [h1, h2, throwOutcome]
    · rcases h3 : ctx.oracle.startAuthorization m ci ctx.provider.redirectUrl
          (m.scopes_supported.map (String.intercalate " ")) with e | uv
      · simp [h1, h2, h3, throwOutcome]
      · rcases uv with ⟨u, w⟩
        simp [h1, h2, h3]

lemma authorizationCode_advances (ctx : StateMachineContext) :
    advancesTo (authorizationCodeExecute ctx) .token_request := by
  unfold advancesTo authorizationCodeExecute
  by_cases hb : authorizationCodeBlank ctx.state.authorizationCode = true
  · simp [hb]
  · simp [hb]

lemma tokenRequest_advances (ctx : StateMachineContext) :
    advancesTo (tokenRequestExecute ctx) .complete := by
  unfold advancesTo tokenRequestExecute
  rcases h1 : ctx.provider.codeVerifier with e | cv
  · simp [h1, throwOutcome]
  · rcases h2 : ctx.oracle.exchangeAuthorization ctx.provider.serverMetadata
        ctx.provider.clientInformation ctx.state.authorizationCode cv
        ctx.provider.redirectUrl with e | tokens
    · simp [h1, h2, throwOutcome]
    · simp [h1, h2]

/-- C1: on every step other than `complete`, whenever `executeStep` runs the
step's action and it succeeds, the single patch it produces sets `oauthStep`
to exactly the documented next step in table order; and on a rejected
precondition or a failing action no produced patch touches `oauthStep`, so
the step never silently advances. -/
theorem executeStep_advances_in_order (ctx : StateMachineContext) :
    ((executeStep ctx).result = .ok () → ctx.state.oauthStep ≠ .complete →
      ∃ p, (executeStep ctx).patches = [p] ∧
        p.oauthStep = some (nextStep ctx.state.oauthStep)) ∧
    (∀ t, (executeStep ctx).result = .error t →
      ∀ p ∈ (executeStep ctx).patches, p.oauthStep = none) := by
  by_cases hcan : (oauthTransitions ctx.state.oauthStep).canTransition ctx = true
  · have hex : executeStep ctx = (oauthTransitions ctx.state.oauthStep).execute ctx := by
      rw [executeStep_def, if_pos hcan]
    rw [hex]
    cases hstep : ctx.state.oauthStep
    · obtain ⟨h1, h2⟩ := metadataDiscovery_advances ctx
      exact ⟨fun hok _ => h1 hok, h2⟩
    · obtain ⟨h1, h2⟩ := clientRegistration_advances ctx
      exact ⟨fun hok _ => h1 hok, h2⟩
    · obtain ⟨h1, h2⟩ := authorizationRedirect_advances ctx
      exact ⟨fun hok _ => h1 hok, h2⟩
    · obtain ⟨h1, h2⟩ := authorizationCode_advances ctx
      exact ⟨fun hok _ => h1 hok, h2⟩
    · obtain ⟨h1, h2⟩ := tokenRequest_advances ctx
      exact ⟨fun hok _ => h1 hok, h2⟩
    · refine ⟨fun _ hne => absurd rfl hne, ?_⟩
      intro t ht p hp
      simp [oauthTransitions, completeExecute] at ht
  · have hex : executeStep ctx = throwOutcome (.err
        ⟨"Cannot transition from " ++ stepName ctx.state.oauthStep⟩) := by
      rw [executeStep_def, if_neg hcan]
    rw [hex]
    constructor
    · intro hok
      simp [throwOutcome] at hok
    · intro t ht p hp
      simp [throwOutcome] at hp

/-- Witness for C1: from the fresh state the first step succeeds with a
single patch advancing to `client_registration`. -/
theorem executeStep_advances_in_order_witness :
    ∃ p, (executeStep (sampleContext emptyDebuggerState)).patches = [p] ∧
      p.oauthStep =
        some (nextStep (sampleContext emptyDebuggerState).state.oauthStep) :=
  (executeStep_advances_in_order (sampleContext emptyDebuggerState)).1
    (by decide) (by decide)

/-- Replace the code verifier produced by `startAuthorization` in an
oracle, leaving every other external result untouched. -/
def withVerifier (o : NetOracle) (v : String) : NetOracle :=
  { o with startAuthorization := fun m ci r s =>
      match o.startAuthorization m ci r s with
      | .ok (u, _) => .ok (u, v)
      | .error e => .error e }

/-- A context whose oracle's PKCE verifier is replaced by `v`. -/
def ctxWithVerifier (ctx : StateMachineContext) (v : String) : StateMachineContext :=
  { ctx with oracle := withVerifier ctx.oracle v }

/-- A state at `authorization_redirect` with metadata and client info in
memory. -/
def redirectState : AuthDebuggerState :=
  { emptyDebuggerState with
      oauthStep := .authorization_redirect
      oauthMetadata := some sampleMetadata
      oauthClientInfo := some sampleClientInfo }

/-- C9: no state patch ever carries the PKCE code verifier. The patches of
every step are invariant under replacing the verifier produced by
`startAuthorization`; and on a successful `authorization_redirect` the
verifier reaches only the Persistent Auth Store (`saveCodeVerifier`), while
the single patch holds just the authorization URL and the step. -/
theorem verifier_never_in_patch (ctx : StateMachineContext) (v : String) :
    (executeStep (ctxWithVerifier ctx v)).patches = (executeStep ctx).patches ∧
    ((executeStep ctx).result = .ok () →
      ctx.state.oauthStep = .authorization_redirect →
      ∃ m ci u w, ctx.state.oauthMetadata = some m ∧
        ctx.state.oauthClientInfo = some ci ∧
        ctx.oracle.startAuthorization m ci ctx.provider.redirectUrl
          (m.scopes_supported.map (String.intercalate " ")) = .ok (u, w) ∧
        (executeStep ctx).patches =
          [{ authorizationUrl := some (some u.href)
             oauthStep := some .authorization_code }] ∧
        (executeStep ctx).effects = [.saveCodeVerifier w]) := by
  constructor
  · cases hstep : ctx.state.oauthStep
    · simp only [executeStep_def, ctxWithVerifier, hstep, oauthTransitions]
      rfl
    · simp only [executeStep_def, ctxWithVerifier, hstep, oauthTransitions]
      rfl
    · simp only [executeStep_def, ctxWithVerifier, hstep, oauthTransitions]
      by_cases hcan : (ctx.state.oauthMetadata.isSome &&
          ctx.state.oauthClientInfo.isSome) = true
      · rw [if_pos hcan, if_pos hcan]
        unfold authorizationRedirectExecute
        rcases h1 : ctx.state.oauthMetadata with _ | m
        · simp [h1]
        · rcases h2 : ctx.state.oauthClientInfo with _ | ci
          · simp [h1, h2]
          · rcases h3 : ctx.oracle.startAuthorization m ci ctx.provider.redirectUrl
                (m.scopes_supported.map (String.intercalate " ")) with e | uv
            · simp [h1, h2, withVerifier, h3, throwOutcome]
            · rcases uv with ⟨u, w⟩
              simp [h1, h2, withVerifier, h3]
      · rw [if_neg hcan, if_neg hcan]
    · simp only [executeStep_def, ctxWithVerifier, hstep, oauthTransitions]
      rfl
    · simp only [executeStep_def, ctxWithVerifier, hstep, oauthTransitions]
      rfl
    · simp only [executeStep_def, ctxWithVerifier, hstep, oauthTransitions]
      rfl
  · intro hok hstep
    have hex : executeStep ctx =
        if (oauthTransitions ctx.state.oauthStep).canTransition ctx
        then (oauthTransitions ctx.state.oauthStep).execute ctx
        else throwOutcome (.err
          ⟨"Cannot transition from " ++ stepName ctx.state.oauthStep⟩) :=
      executeStep_def ctx
    rw [hstep] at hex
    by_cases hcan : (oauthTransitions .authorization_redirect).canTransition ctx = true
    · rw [if_pos hcan] at hex
      rw [hex] at hok ⊢
      simp only [oauthTransitions] at hok ⊢
      unfold authorizationRedirectExecute at hok ⊢
      rcases h1 : ctx.state.oauthMetadata with _ | m
      · rw [h1] at hok
        simp [throwOutcome] at hok
      · rcases h2 : ctx.state.oauthClientInfo with _ | ci
        · rw [h1, h2] at hok
          simp [throwOutcome] at hok
        · rcases h3 : ctx.oracle.startAuthorization m ci ctx.provider.redirectUrl
              (m.scopes_supported.map (String.intercalate " ")) with e | uv
          · rw [h1, h2] at hok
            simp [h3, throwOutcome] at hok
          · rcases uv with ⟨u, w⟩
            refine ⟨m, ci, u, w, rfl, rfl, h3, ?_, ?_⟩ <;>
              simp [h1, h2, h3]
    · rw [if_neg hcan] at hex
      rw [hex] at hok
      simp [throwOutcome] at hok

/-- Witness for C9: at a concrete `authorization_redirect` context,
replacing the verifier leaves the patches unchanged, and the verifier
appears only in the `saveCodeVerifier` store effect. -/
theorem verifier_never_in_patch_witness :
    (executeStep (ctxWithVerifier (sampleContext redirectState) "v2")).patches =
      (executeStep (sampleContext redirectState)).patches ∧
    ∃ m ci u w,
      (sampleContext redirectState).state.oauthMetadata = some m ∧
      (sampleContext redirectState).state.oauthClientInfo = some ci ∧
      (sampleContext redirectState).oracle.startAuthorization m ci
        (sampleContext redirectState).provider.redirectUrl
        (m.scopes_supported.map (String.intercalate " ")) = .ok (u, w) ∧
      (executeStep (sampleContext redirectState)).patches =
        [{ authorizationUrl := some (some u.href)
           oauthStep := some .authorization_code }] ∧
      (executeStep (sampleContext redirectState)).effects =
        [.saveCodeVerifier w] :=
  ⟨(verifier_never_in_patch (sampleContext redirectState) "v2").1,
    (verifier_never_in_patch (sampleContext redirectState) "v2").2
      (by decide) rfl⟩
